import Mathlib

/-!
Verification of the incremental job-advertisement collection engine:
a shallow embedding of the Python sources `gumtree_scraper.py`,
`simple_scraper.py`, `clean_errors.py` and `check_uniqueness.py`,
followed by theorems settling the specification claims.

Files are modelled as `Option (List _)` (`none` = file absent, mirroring
`FileNotFoundError`); CSV data rows are modelled by the `Job` structure
(one field per column of the fixed schema).
-/

namespace JobAds

/-- Python `str.strip()` on the ASCII whitespace characters that occur in
this code base (space, tab, newline, carriage return). -/
def pyWhitespace (c : Char) : Bool :=
  c == ' ' || c == '\t' || c == '\n' || c == '\r'

/-- Character-list version of Python `str.strip()`. -/
def pyStripChars (cs : List Char) : List Char :=
  ((cs.dropWhile pyWhitespace).reverse.dropWhile pyWhitespace).reverse

/-- Python `str.strip()`. -/
def pyStrip (s : String) : String :=
  ⟨pyStripChars s.data⟩

/-- Python `str.lower()` (per-character lowering; the titles in this code
base are ASCII-compatible). -/
def pyLower (s : String) : String :=
  ⟨s.data.map Char.toLower⟩

/-- The normalisation `title.strip().lower()` used by `simple_scraper.py`
for its dedup keys. -/
def pyStripLower (s : String) : String :=
  pyLower (pyStrip s)

/-- Python `url.rstrip("/")`: drop every trailing `'/'`. -/
def pyRstripSlash (s : String) : String :=
  ⟨(s.data.reverse.dropWhile (· == '/')).reverse⟩

/-- Python `str.split("/")` on a character list, with accumulator `acc`
holding the current segment reversed.  Mirrors CPython semantics:
splitting the empty string yields `[""]`, adjacent separators yield empty
segments. -/
def pySplitSlashAux : List Char → List Char → List String
  | [], acc => [⟨acc.reverse⟩]
  | c :: rest, acc =>
    if c == '/' then ⟨acc.reverse⟩ :: pySplitSlashAux rest []
    else pySplitSlashAux rest (c :: acc)

/-- Python `str.split("/")`. -/
def pySplitSlash (s : String) : List String :=
  pySplitSlashAux s.data []

/-- Python `list[-1]` specialised to the use here: the last element of a
list, with a default for the (unreachable) empty case. -/
def pyLast (d : String) : List String → String
  | [] => d
  | [x] => x
  | _ :: x :: xs => pyLast d (x :: xs)

/-- `gumtree_scraper.job_id_from_url`:
`url.rstrip("/").split("/")[-1]`. -/
def job_id_from_url (url : String) : String :=
  pyLast "" (pySplitSlash (pyRstripSlash url))

/-- Restatement, in the spec's words, of what the identity derivation
should produce: the last `'/'`-separated segment of the url after
stripping trailing slashes, i.e. the longest slash-free suffix of the
stripped url. -/
def lastUrlSegment (url : String) : String :=
  ⟨((pyRstripSlash url).data.reverse.takeWhile (fun c => !(c == '/'))).reverse⟩

/- ### Data model: one CSV row of the fixed ten-column schema -/

/-- One dataset record, with one field per column of the fixed schema
`id,url,title,company,salary,location,work_time,contract_type,scraped_at,description`. -/
structure Job where
  id : String
  url : String
  title : String
  company : String
  salary : String
  location : String
  work_time : String
  contract_type : String
  scraped_at : String
  description : String
deriving DecidableEq, Repr

/-- The canonical header row `','.join(headers)` of both scrapers. -/
def canonicalHeader : String :=
  "id,url,title,company,salary,location,work_time,contract_type,scraped_at,description"

/- ### Persistence: `gumtree_scraper.append_to_csv` (lines 337-371).

A text file is modelled as `Option (List String)`: `none` when the file
does not exist (`FileNotFoundError`), otherwise the list of its lines
(line-terminator free).  `first_line` is `f.readline().strip()`, i.e. the
stripped first line, or the stripped empty string when the file has no
lines. -/

/-- `append_to_csv(new_jobs, filename)`: no-op on an empty record list;
creates header+rows when the file is absent; appends only when the
stripped first line equals the canonical header; otherwise rewrites the
file as header + original content before appending. -/
def append_to_csv (newRows : List String) (file : Option (List String)) :
    Option (List String) :=
  if newRows = [] then file
  else
    match file with
    | none => some (canonicalHeader :: newRows)
    | some ls =>
      let firstLine := pyStrip (ls.head?.getD "")
      let healed := if firstLine = canonicalHeader then ls else canonicalHeader :: ls
      some (healed ++ newRows)

/- ### Counting and loading (gumtree_scraper lines 19-67) -/

/-- The shared row-validity count: rows whose title is non-empty and not
the denial sentinel `'403 ERROR'` (the loop bodies of
`get_target_count_from_jobs_csv` and `count_existing_gumtree_jobs`). -/
def countValidRows : List Job → Nat
  | [] => 0
  | r :: rest =>
    if r.title ≠ "" ∧ r.title ≠ "403 ERROR" then countValidRows rest + 1
    else countValidRows rest

/-- `get_target_count_from_jobs_csv`: counts non-denied records of
`jobs.csv`, falling back to the fixed default 1321 when the file is
absent. -/
def get_target_count_from_jobs_csv (jobsCsv : Option (List Job)) : Nat :=
  match jobsCsv with
  | some rows => countValidRows rows
  | none => 1321

/-- `count_existing_gumtree_jobs`: same count over `gumtree_jobs.csv`,
falling back to 0 when the file is absent. -/
def count_existing_gumtree_jobs (gumtreeCsv : Option (List Job)) : Nat :=
  match gumtreeCsv with
  | some rows => countValidRows rows
  | none => 0

/-- `load_existing_gumtree_jobs`: the dedup identities reconstructed from
`gumtree_jobs.csv` (one id per row with a non-empty stripped url), or the
empty set when the file is absent. -/
def load_existing_gumtree_jobs (gumtreeCsv : Option (List Job)) : List String :=
  match gumtreeCsv with
  | none => []
  | some rows =>
    rows.foldl
      (fun acc r =>
        let u := pyStrip r.url
        if u ≠ "" then job_id_from_url u :: acc else acc)
      []

/- ### Batch success filters -/

/-- Gumtree batch collection (`scrape_gumtree_batch_mode` lines 494-501):
a gathered result enters `batch_jobs` iff it is a record (`none`
models a `None`/exception result) with a truthy (non-empty) title. -/
def gumtreeBatchSuccesses : List (Option Job) → List Job
  | [] => []
  | none :: rest => gumtreeBatchSuccesses rest
  | some j :: rest =>
    if j.title = "" then gumtreeBatchSuccesses rest
    else j :: gumtreeBatchSuccesses rest

/-- OLX batch collection (`scrape_jobs_in_batches` lines 197-202): every
record result is kept, with no condition on its title. -/
def olxBatchSuccesses : List (Option Job) → List Job
  | [] => []
  | none :: rest => olxBatchSuccesses rest
  | some j :: rest => j :: olxBatchSuccesses rest

/- ### Cleanup: `clean_errors.clean_403_errors` (lines 83-185).

The observable actions of one invocation are modelled as an event trace
(`backup` = the timestamped `shutil.copy2`, `rewrite` = the destructive
`open(input_file, 'w')`) together with the resulting row list. -/

inductive CleanEvent where
  | backup
  | rewrite
deriving DecidableEq, Repr

structure CleanResult where
  events : List CleanEvent
  file : Option (List Job)
deriving DecidableEq, Repr

/-- Rows whose stripped title equals the denial sentinel (the
`error_records` count of `clean_403_errors`). -/
def count403 : List Job → Nat
  | [] => 0
  | r :: rest =>
    if pyStrip r.title = "403 ERROR" then count403 rest + 1
    else count403 rest

/-- `clean_403_errors(input_file, backup, ...)`: returns early when the
file is absent or contains no sentinel rows; otherwise copies the file
first (only when `backup` is set) and then rewrites it without the
sentinel rows. -/
def clean_403_errors (file : Option (List Job)) (backup : Bool) : CleanResult :=
  match file with
  | none => ⟨[], none⟩
  | some rows =>
    if count403 rows = 0 then ⟨[], some rows⟩
    else
      ⟨(if backup then [CleanEvent.backup] else []) ++ [CleanEvent.rewrite],
       some (rows.filter (fun r => !(pyStrip r.title == "403 ERROR")))⟩

/- ### Duplicate audit: `check_uniqueness.analyze_uniqueness` (lines 43-50) -/

/-- The `valid_records` counter of `analyze_uniqueness`: rows not skipped
by the `row.get('title', '').strip() == '403 ERROR'` guard. -/
def analyze_valid_records : List Job → Nat
  | [] => 0
  | r :: rest =>
    if pyStrip r.title = "403 ERROR" then analyze_valid_records rest
    else analyze_valid_records rest + 1

/- ### Deduplication filtering at scheduling time -/

/-- The Gumtree candidate loop (`scrape_gumtree_batch_mode` lines
453-469): each listing link's id is derived; known ids are skipped; a new
link is appended to `new_links` and its id is added to the tracking set
at that same moment.  Returns (accepted links, updated known set). -/
def gumtreeFilterNew (known : List String) : List String → List String × List String
  | [] => ([], known)
  | url :: rest =>
    let jid := job_id_from_url url
    if jid ∈ known then gumtreeFilterNew known rest
    else
      let r := gumtreeFilterNew (jid :: known) rest
      (url :: r.1, r.2)

/-- One run's acceptances across successive listing pages, threading the
same in-memory id set (as the while-loop of `scrape_gumtree_batch_mode`
does with `existing_gumtree_ids`). -/
def gumtreeScheduleRun (known : List String) : List (List String) → List String
  | [] => []
  | p :: ps =>
    let r := gumtreeFilterNew known p
    r.1 ++ gumtreeScheduleRun r.2 ps

/-- One OLX listing candidate: its url together with the outcome of
reading its listing title (`none` = the `try` block raised; `some none` =
no `h4` element; `some (some t)` = title `t`). -/
structure OlxCand where
  url : String
  titleRead : Option (Option String)
deriving DecidableEq, Repr

/-- The OLX candidate loop (`scrape_jobs_batch_mode` lines 330-347): a
candidate with a readable title is deduplicated on
`title.strip().lower()` and marked at acceptance; a candidate without an
`h4` title element is dropped; a candidate whose title read raises is
appended to `new_links` with no dedup check and no marking. -/
def olxFilterNew (known : List String) : List OlxCand → List OlxCand × List String
  | [] => ([], known)
  | c :: rest =>
    match c.titleRead with
    | none =>
      let r := olxFilterNew known rest
      (c :: r.1, r.2)
    | some none => olxFilterNew known rest
    | some (some t) =>
      let key := pyStripLower t
      if key ∈ known then olxFilterNew known rest
      else
        let r := olxFilterNew (key :: known) rest
        (c :: r.1, r.2)

/-- The dedup key of an OLX candidate, when its title was readable. -/
def olxKeyOf (c : OlxCand) : Option String :=
  match c.titleRead with
  | some (some t) => some (pyStripLower t)
  | _ => none

/-- The OLX acceptances across successive listing pages, threading the
same `existing_jobs` set. -/
def olxScheduleRun (known : List String) : List (List OlxCand) → List OlxCand
  | [] => []
  | p :: ps =>
    let r := olxFilterNew known p
    r.1 ++ olxScheduleRun r.2 ps

/- ### Batch sizing -/

/-- The Gumtree batch truncation (`scrape_gumtree_batch_mode` lines
481-487): `jobs_to_scrape = new_links[:remaining_needed]` with
`remaining_needed = target_count - (existing_count_in_file +
total_scraped)`. -/
def gumtreeJobsToScrape (target existing scraped : Nat)
    (newLinks : List String) : List String :=
  newLinks.take (target - (existing + scraped))

/-- Fueled helper for the OLX batch chunking; the fuel only has to
dominate the list length. -/
def olxBatchesAux (bs : Nat) : Nat → List String → List (List String)
  | 0, _ => []
  | _ + 1, [] => []
  | fuel + 1, x :: xs =>
    (x :: xs.take (bs - 1)) :: olxBatchesAux bs fuel (xs.drop (bs - 1))

/-- The OLX batch chunking of `scrape_jobs_in_batches` (lines 174-176):
`links[i:i+batch_size]` for `i in range(0, len(links), batch_size)`. -/
def olxBatches (bs : Nat) (links : List String) : List (List String) :=
  olxBatchesAux bs links.length links

/-- The number of detail-page fetches `scrape_jobs_in_batches` issues:
one per link of every chunk. -/
def olxFetchCount (bs : Nat) (links : List String) : Nat :=
  ((olxBatches bs links).map List.length).sum

/-- The fetches issued while the OLX driver processes one listing page
(`scrape_jobs_batch_mode` lines 330-356): the accepted candidates are
passed to `scrape_jobs_in_batches` untruncated whenever there are any. -/
def olxPageFetches (bs : Nat) (known : List String) (links : List OlxCand) : Nat :=
  let newLinks := (olxFilterNew known links).1.map (fun c => c.url)
  if newLinks = [] then 0 else olxFetchCount bs newLinks

/- ### The Gumtree pagination walk (`scrape_gumtree_batch_mode` lines 413-526).

The listing source is abstracted as `src : Nat → List String` (the
candidate links the page-scan yields for each page number, after the
fallback from path-style to query-style page urls) and the detail fetch as
`fetch : String → Option Job` (`none` = exception or `None`).  The walk
returns the list of listing page numbers it requests, in order; fuel
bounds the recursion.  All state updates (scraped counter, id set, stored
fingerprint) mirror the loop body. -/

/-- `page_ids`: ids of the candidates with a truthy url. -/
def gumtreePageIds (links : List String) : List String :=
  (links.filter (fun u => !(u == ""))).map job_id_from_url

/-- The Pagination Fingerprint: `tuple(page_ids[:10])`. -/
def gumtreeFingerprint (links : List String) : List String :=
  (gumtreePageIds links).take 10

/-- The scraped-counter update one page performs: unchanged when no new
links were accepted, otherwise increased by the number of successful
records of the (truncated) batch. -/
def gumtreeScraped (target existing scraped : Nat) (known : List String)
    (links : List String) (fetch : String → Option Job) : Nat :=
  if (gumtreeFilterNew known links).1 = [] then scraped
  else
    scraped +
      (gumtreeBatchSuccesses
        ((gumtreeJobsToScrape target existing scraped
          (gumtreeFilterNew known links).1).map fetch)).length

/-- One Gumtree run: page numbers requested, driven by the loop of
`scrape_gumtree_batch_mode`.  The in-loop stops are, in source order: the
top-of-loop target check, the empty-listing stop, the stuck-pager
fingerprint stop (skipped on page 1), the `remaining_needed <= 0` break
before a non-empty batch, and the post-batch target check. -/
def gumtreeWalk (src : Nat → List String) (fetch : String → Option Job)
    (target existing : Nat) :
    Nat → Nat → Nat → List String → Option (List String) → List Nat
  | 0, _, _, _, _ => []
  | fuel + 1, pageNum, scraped, known, lastFp =>
    if target ≠ 0 ∧ target ≤ existing + scraped then []
    else
      pageNum ::
        (if src pageNum = [] then []
         else if lastFp = some (gumtreeFingerprint (src pageNum)) ∧ 1 < pageNum then []
         else if (gumtreeFilterNew known (src pageNum)).1 ≠ [] ∧
             target ≤ existing + scraped then []
         else if target ≤ existing +
             gumtreeScraped target existing scraped known (src pageNum) fetch then []
         else
           gumtreeWalk src fetch target existing fuel (pageNum + 1)
             (gumtreeScraped target existing scraped known (src pageNum) fetch)
             (gumtreeFilterNew known (src pageNum)).2
             (some (gumtreeFingerprint (src pageNum))))

/- ### Concrete records used by witnesses and counterexamples -/

/-- A record with every field empty. -/
def blankJob : Job :=
  ⟨"", "", "", "", "", "", "", "", "", ""⟩

/-- A denial-sentinel record: the title is exactly `'403 ERROR'`. -/
def sentinelJob : Job :=
  { blankJob with id := "1", url := "https://www.gumtree.com/p/x/1", title := "403 ERROR" }

/-- A record whose title is the sentinel padded with a trailing space. -/
def paddedSentinelJob : Job :=
  { blankJob with id := "2", url := "https://www.gumtree.com/p/x/2", title := "403 ERROR " }

/-- An ordinary valid record. -/
def sampleJob : Job :=
  { blankJob with id := "3", title := "Warehouse Operative" }

/-- A record with an empty title, as produced when no `h1` is found. -/
def emptyTitleJob : Job :=
  { blankJob with id := "4", url := "https://www.olx.pl/oferta/praca/x" }

/- ### Helper lemmas about the string embeddings -/

theorem string_data_append (a b : String) : (a ++ b).data = a.data ++ b.data := by
  cases a; cases b; rfl

theorem string_mk_data (s : String) : (⟨s.data⟩ : String) = s := by
  cases s; rfl

theorem pyRstripSlash_append_slash (url : String) :
    pyRstripSlash (url ++ "/") = pyRstripSlash url := by
  unfold pyRstripSlash
  rw [string_data_append]
  have : ("/" : String).data = ['/'] := rfl
  rw [this, List.reverse_append]
  rfl

theorem pySplitSlashAux_ne_nil (cs : List Char) (acc : List Char) :
    pySplitSlashAux cs acc ≠ [] := by
  induction cs generalizing acc with
  | nil => simp [pySplitSlashAux]
  | cons c rest ih =>
    by_cases h : c == '/' <;> simp [pySplitSlashAux, h, ih]

theorem pyLast_cons_of_ne_nil (d a : String) (l : List String) (h : l ≠ []) :
    pyLast d (a :: l) = pyLast d l := by
  cases l with
  | nil => exact absurd rfl h
  | cons x xs => rfl

theorem takeWhile_append_of_exists {p : Char → Bool} (l t : List Char)
    (h : ∃ x ∈ l, ¬ p x) : (l ++ t).takeWhile p = l.takeWhile p := by
  induction l with
  | nil =>
    obtain ⟨x, hx, _⟩ := h
    exact absurd hx (List.not_mem_nil x)
  | cons c cl ih =>
    by_cases hc : p c
    · simp only [List.cons_append, List.takeWhile_cons, hc]
      have : ∃ x ∈ cl, ¬ p x := by
        obtain ⟨x, hx, hpx⟩ := h
        rcases List.mem_cons.1 hx with rfl | hx'
        · exact absurd hc hpx
        · exact ⟨x, hx', hpx⟩
      rw [ih this]
    · simp only [List.cons_append, List.takeWhile_cons, hc]
      simp

theorem takeWhile_append_of_all {p : Char → Bool} (l t : List Char)
    (h : ∀ x ∈ l, p x) : (l ++ t).takeWhile p = l ++ t.takeWhile p := by
  induction l with
  | nil => simp
  | cons c cl ih =>
    have hc : p c = true := h c (List.mem_cons_self c cl)
    simp only [List.cons_append, List.takeWhile_cons, hc]
    rw [ih fun x hx => h x (List.mem_cons_of_mem c hx)]
    simp

theorem takeWhile_of_all {p : Char → Bool} (l : List Char)
    (h : ∀ x ∈ l, p x) : l.takeWhile p = l := by
  have := takeWhile_append_of_all l [] h
  simpa using this

/-- The key characterisation: the last segment produced by the Python
split is the longest slash-free suffix (with the accumulator appearing
only when no separator occurs at all). -/
theorem pySplitSlashAux_last (cs : List Char) : ∀ acc d,
    pyLast d (pySplitSlashAux cs acc) =
      if '/' ∈ cs then ⟨(cs.reverse.takeWhile (fun c => !(c == '/'))).reverse⟩
      else ⟨acc.reverse ++ cs⟩ := by
  induction cs with
  | nil =>
    intro acc d
    simp [pySplitSlashAux, pyLast]
  | cons c rest ih =>
    intro acc d
    by_cases hc : c = '/'
    · subst hc
      simp only [pySplitSlashAux, beq_self_eq_true, if_true]
      rw [pyLast_cons_of_ne_nil _ _ _ (pySplitSlashAux_ne_nil rest [])]
      rw [ih [] d]
      simp only [List.mem_cons, true_or, if_true, List.reverse_cons]
      by_cases hr : '/' ∈ rest
      · have hx : ∃ x ∈ rest.reverse, ¬ ((fun c => !(c == '/')) x = true) := by
          refine ⟨'/', List.mem_reverse.2 hr, ?_⟩
          simp
        rw [takeWhile_append_of_exists _ _ hx]
        simp [hr]
      · have hall : ∀ x ∈ rest.reverse, (fun c => !(c == '/')) x = true := by
          intro x hx
          have hxr : x ∈ rest := List.mem_reverse.1 hx
          have : x ≠ '/' := fun h => hr (h ▸ hxr)
          simp [this]
        rw [takeWhile_append_of_all _ _ hall]
        simp [hr]
    · have hcb : (c == '/') = false := by simp [hc]
      simp only [pySplitSlashAux, hcb, Bool.false_eq_true, if_false]
      rw [ih (c :: acc) d]
      have hne : ¬ ('/' = c) := fun h => hc h.symm
      have hmem : ('/' ∈ c :: rest) ↔ '/' ∈ rest := by
        simp [List.mem_cons, hne]
      by_cases hr : '/' ∈ rest
      · rw [if_pos hr, if_pos (hmem.2 hr)]
        have hx : ∃ x ∈ rest.reverse, ¬ ((fun c => !(c == '/')) x = true) := by
          refine ⟨'/', List.mem_reverse.2 hr, ?_⟩
          simp
        simp only [List.reverse_cons]
        rw [takeWhile_append_of_exists _ _ hx]
      · rw [if_neg hr, if_neg (fun h => hr (hmem.1 h))]
        simp only [List.reverse_cons, List.append_assoc, List.singleton_append]

/-- C9: `job_id_from_url` is a total deterministic function on strings,
invariant under a trailing slash, and it returns the last `'/'`-separated
segment of the url after stripping trailing slashes (the empty string
when the stripped url is empty). -/
theorem job_id_from_url_spec (url : String) :
    job_id_from_url (url ++ "/") = job_id_from_url url ∧
    job_id_from_url url = lastUrlSegment url ∧
    (pyRstripSlash url = "" → job_id_from_url url = "") := by
  have hlast : job_id_from_url url = lastUrlSegment url := by
    unfold job_id_from_url pySplitSlash lastUrlSegment
    rw [pySplitSlashAux_last]
    by_cases h : '/' ∈ (pyRstripSlash url).data
    · rw [if_pos h]
    · rw [if_neg h]
      have hall : ∀ x ∈ (pyRstripSlash url).data.reverse,
          (fun c => !(c == '/')) x = true := by
        intro x hx
        have hxr : x ∈ (pyRstripSlash url).data := List.mem_reverse.1 hx
        have : x ≠ '/' := fun he => h (he ▸ hxr)
        simp [this]
      rw [takeWhile_of_all _ hall]
      simp
  refine ⟨?_, hlast, ?_⟩
  · unfold job_id_from_url
    rw [pyRstripSlash_append_slash]
  · intro h
    unfold job_id_from_url pySplitSlash
    rw [h]
    rfl

/-- C9 witness: a url of only slashes strips to the empty string, and its
derived id is the empty string. -/
theorem job_id_from_url_spec_witness : job_id_from_url "///" = "" :=
  (job_id_from_url_spec "///").2.2 (by decide)

/- ### C1: header handling of the append operation -/

/-- C1 counterexample: a file whose single line is the canonical header
padded with one trailing space.  That first line is not the canonical
header, so the claim requires the canonical header to be prepended; the
code, which compares the stripped first line, merely appends. -/
theorem append_to_csv_padded_header_counterexample :
    (canonicalHeader ++ " ") ≠ canonicalHeader ∧
    append_to_csv ["r"] (some [canonicalHeader ++ " "]) =
      some [canonicalHeader ++ " ", "r"] ∧
    append_to_csv ["r"] (some [canonicalHeader ++ " "]) ≠
      some (canonicalHeader :: (canonicalHeader ++ " ") :: ["r"]) := by
  decide

/-- C1 (amended): with the header test read as the code performs it — on
the whitespace-stripped first line — every case of the claim holds: a
missing file becomes header+rows, a file whose stripped first line is the
header gets the rows appended, and any other file is healed to
header + original lines + rows, losing no prior line. -/
theorem append_to_csv_header_cases (newRows : List String) (h : newRows ≠ []) :
    append_to_csv newRows none = some (canonicalHeader :: newRows) ∧
    (∀ ls : List String, pyStrip (ls.head?.getD "") = canonicalHeader →
      append_to_csv newRows (some ls) = some (ls ++ newRows)) ∧
    (∀ ls : List String, pyStrip (ls.head?.getD "") ≠ canonicalHeader →
      append_to_csv newRows (some ls) = some (canonicalHeader :: (ls ++ newRows))) := by
  refine ⟨?_, fun ls hls => ?_, fun ls hls => ?_⟩
  · simp [append_to_csv, h]
  · simp [append_to_csv, h, hls]
  · simp [append_to_csv, h, hls]

/-- C1 witness: the amended theorem applied to one concrete append. -/
theorem append_to_csv_header_cases_witness :
    append_to_csv ["row"] none = some (canonicalHeader :: ["row"]) :=
  (append_to_csv_header_cases ["row"] (by decide)).1

/- ### C10: cleanup is a no-op on a sentinel-free file -/

/-- C10 counterexample: a file whose only row's title is the sentinel
padded with a trailing space contains no row whose title equals
`'403 ERROR'`, yet the cleanup — which strips titles before comparing —
backs up and rewrites the file, dropping that row. -/
theorem clean_noop_counterexample :
    paddedSentinelJob.title ≠ "403 ERROR" ∧
    (clean_403_errors (some [paddedSentinelJob]) true).events =
      [CleanEvent.backup, CleanEvent.rewrite] ∧
    (clean_403_errors (some [paddedSentinelJob]) true).file = some [] := by
  decide

/-- Helper: no sentinel row (up to stripping) means a zero error count. -/
theorem count403_eq_zero (rows : List Job)
    (h : ∀ r ∈ rows, pyStrip r.title ≠ "403 ERROR") : count403 rows = 0 := by
  induction rows with
  | nil => rfl
  | cons r rest ih =>
    have hr : pyStrip r.title ≠ "403 ERROR" := h r (List.mem_cons_self r rest)
    simp only [count403, hr, if_false]
    exact ih fun x hx => h x (List.mem_cons_of_mem r hx)

/-- C10 (amended): with the sentinel test read as the code performs it —
on the stripped title — the claim holds: if no row's stripped title
equals `'403 ERROR'`, the cleanup performs neither a backup nor a rewrite
and returns the file unchanged. -/
theorem clean_noop_on_clean_file (rows : List Job) (backup : Bool)
    (h : ∀ r ∈ rows, pyStrip r.title ≠ "403 ERROR") :
    clean_403_errors (some rows) backup = ⟨[], some rows⟩ := by
  simp [clean_403_errors, count403_eq_zero rows h]

/-- C10 witness: the cleanup leaves a one-valid-row file untouched. -/
theorem clean_noop_on_clean_file_witness :
    clean_403_errors (some [sampleJob]) true = ⟨[], some [sampleJob]⟩ :=
  clean_noop_on_clean_file [sampleJob] true (by decide)

/- ### C8: backup precedes any destructive rewrite -/

/-- C8 counterexample: invoked with `backup=False` on a file holding a
sentinel row, the cleanup rewrites the file without creating any backup
copy. -/
theorem clean_backup_flag_counterexample :
    CleanEvent.rewrite ∈ (clean_403_errors (some [sentinelJob]) false).events ∧
    CleanEvent.backup ∉ (clean_403_errors (some [sentinelJob]) false).events := by
  decide

/-- C8 (amended): for every invocation with the backup flag enabled (its
default), whenever the cleanup rewrites the dataset file the timestamped
copy is created, and it is created before the rewrite. -/
theorem clean_backup_before_rewrite (file : Option (List Job))
    (h : CleanEvent.rewrite ∈ (clean_403_errors file true).events) :
    (clean_403_errors file true).events = [CleanEvent.backup, CleanEvent.rewrite] := by
  cases file with
  | none => simp [clean_403_errors] at h
  | some rows =>
    by_cases hz : count403 rows = 0
    · simp [clean_403_errors, hz] at h
    · simp [clean_403_errors, hz]

/-- C8 witness: the amended theorem at a file with one sentinel row. -/
theorem clean_backup_before_rewrite_witness :
    (clean_403_errors (some [sentinelJob]) true).events =
      [CleanEvent.backup, CleanEvent.rewrite] :=
  clean_backup_before_rewrite (some [sentinelJob]) (by decide)

/- ### C4: the empty-title filter on batch successes -/

/-- C4 counterexample: the OLX batch collector keeps a record whose title
is empty, and `scrape_jobs_in_batches` appends every collected batch to
the dataset file, so an empty-title record is persisted. -/
theorem olx_empty_title_counterexample :
    emptyTitleJob.title = "" ∧
    olxBatchSuccesses [some emptyTitleJob] = [emptyTitleJob] := by
  decide

/-- C4 (amended): the Gumtree batch collector admits only records with a
non-empty title into the successes passed to the persistence append; the
OLX batch collector keeps every record result, with no condition on the
title. -/
theorem batch_title_filter :
    (∀ results : List (Option Job), ∀ j ∈ gumtreeBatchSuccesses results,
      j.title ≠ "") ∧
    (∀ results : List (Option Job), olxBatchSuccesses results = results.filterMap id) := by
  constructor
  · intro results
    induction results with
    | nil => intro j hj; simp [gumtreeBatchSuccesses] at hj
    | cons r rest ih =>
      intro j hj
      cases r with
      | none => exact ih j (by simpa [gumtreeBatchSuccesses] using hj)
      | some a =>
        by_cases ht : a.title = ""
        · exact ih j (by simpa [gumtreeBatchSuccesses, ht] using hj)
        · have : j = a ∨ j ∈ gumtreeBatchSuccesses rest := by
            simpa [gumtreeBatchSuccesses, ht] using hj
          rcases this with rfl | hj'
          · exact ht
          · exact ih j hj'
  · intro results
    induction results with
    | nil => rfl
    | cons r rest ih => cases r <;> simp [olxBatchSuccesses, ih]

/-- C4 witness: the Gumtree filter applied to one concrete success. -/
theorem batch_title_filter_witness : sampleJob.title ≠ "" :=
  batch_title_filter.1 [some sampleJob] sampleJob (by decide)

/- ### C6: exclusion of the denial sentinel -/

/-- C6 counterexample: a fetch result titled `'403 ERROR'` has a truthy
title, so the Gumtree batch filter accepts it into `batch_jobs`; the run
then adds `len(batch_jobs)` to `total_scraped`, so the sentinel result
does count toward target progress (and is persisted). -/
theorem sentinel_counted_counterexample :
    sentinelJob.title = "403 ERROR" ∧
    gumtreeBatchSuccesses [some sentinelJob] = [sentinelJob] ∧
    (gumtreeBatchSuccesses [some sentinelJob]).length = 1 := by
  decide

/-- C6 (amended): a sentinel-titled row is excluded from the startup
count of existing records and from the duplicate audit's valid-record
count, but the engine's batch filter only requires a non-empty title, so
a sentinel-titled fetch result is accepted as a success and does count
toward target progress. -/
theorem denial_exclusion :
    (∀ (r : Job) (rows : List Job), r.title = "403 ERROR" →
      count_existing_gumtree_jobs (some (r :: rows)) =
        count_existing_gumtree_jobs (some rows)) ∧
    (∀ (r : Job) (rows : List Job), r.title = "403 ERROR" →
      analyze_valid_records (r :: rows) = analyze_valid_records rows) ∧
    (∀ (results : List (Option Job)) (j : Job), some j ∈ results →
      j.title ≠ "" → j ∈ gumtreeBatchSuccesses results) := by
  refine ⟨?_, ?_, ?_⟩
  · intro r rows hr
    simp [count_existing_gumtree_jobs, countValidRows, hr]
  · intro r rows hr
    have : pyStrip r.title = "403 ERROR" := by rw [hr]; decide
    simp [analyze_valid_records, this]
  · intro results j hj hne
    induction results with
    | nil => simp at hj
    | cons r rest ih =>
      rcases List.mem_cons.1 hj with heq | hmem
      · rw [← heq]
        simp [gumtreeBatchSuccesses, hne]
      · cases r with
        | none => simpa [gumtreeBatchSuccesses] using ih hmem
        | some a =>
          by_cases ht : a.title = ""
          · simpa [gumtreeBatchSuccesses, ht] using ih hmem
          · simp only [gumtreeBatchSuccesses, ht, if_false]
            exact List.mem_cons_of_mem a (ih hmem)

/-- C6 witness: the amended theorem at concrete rows and results. -/
theorem denial_exclusion_witness :
    count_existing_gumtree_jobs (some [sentinelJob, sampleJob]) =
      count_existing_gumtree_jobs (some [sampleJob]) ∧
    analyze_valid_records [sentinelJob, sampleJob] =
      analyze_valid_records [sampleJob] ∧
    sampleJob ∈ gumtreeBatchSuccesses [some sampleJob] :=
  ⟨denial_exclusion.1 sentinelJob [sampleJob] (by decide),
   denial_exclusion.2.1 sentinelJob [sampleJob] (by decide),
   denial_exclusion.2.2 [some sampleJob] sampleJob (by decide) (by decide)⟩

/- ### C7: target sizing and its fallbacks -/

/-- C7: with no explicit target, the initial target is the number of
records of the reference sizing dataset whose title is non-empty and not
the denial sentinel; an absent reference file yields the fixed default
1321, and an absent dedup source yields the empty dedup set — both
without aborting. -/
theorem target_count_fallback :
    get_target_count_from_jobs_csv none = 1321 ∧
    load_existing_gumtree_jobs none = [] ∧
    ∀ rows : List Job, get_target_count_from_jobs_csv (some rows) =
      (rows.filter (fun r => decide (r.title ≠ "" ∧ r.title ≠ "403 ERROR"))).length := by
  refine ⟨rfl, rfl, ?_⟩
  intro rows
  induction rows with
  | nil => rfl
  | cons r rest ih =>
    by_cases h : r.title ≠ "" ∧ r.title ≠ "403 ERROR" <;>
      simp_all [get_target_count_from_jobs_csv, countValidRows, List.filter_cons]

/- ### C2: marking identities at scheduling time -/

/-- Invariant of the Gumtree candidate loop: accepted links carry
pairwise distinct ids, none already known, and the updated set is exactly
the old set plus the accepted ids. -/
theorem gumtreeFilterNew_spec (cands : List String) : ∀ known : List String,
    ((gumtreeFilterNew known cands).1.map job_id_from_url).Nodup ∧
    (∀ u ∈ (gumtreeFilterNew known cands).1, job_id_from_url u ∉ known) ∧
    (∀ k, k ∈ (gumtreeFilterNew known cands).2 ↔
      k ∈ known ∨ k ∈ (gumtreeFilterNew known cands).1.map job_id_from_url) := by
  induction cands with
  | nil =>
    intro known
    simp [gumtreeFilterNew]
  | cons url rest ih =>
    intro known
    by_cases h : job_id_from_url url ∈ known
    · simpa [gumtreeFilterNew, h] using ih known
    · obtain ⟨h1, h2, h3⟩ := ih (job_id_from_url url :: known)
      simp only [gumtreeFilterNew, h, if_false]
      refine ⟨?_, ?_, ?_⟩
      · rw [List.map_cons, List.nodup_cons]
        refine ⟨?_, h1⟩
        intro hmem
        obtain ⟨u, hu, he⟩ := List.mem_map.1 hmem
        exact (h2 u hu) (by rw [he]; exact List.mem_cons_self _ _)
      · intro u hu
        rcases List.mem_cons.1 hu with rfl | hu'
        · exact h
        · exact fun hk => (h2 u hu') (List.mem_cons_of_mem _ hk)
      · intro k
        rw [h3 k]
        simp only [List.map_cons, List.mem_cons]
        tauto

/-- Invariant across whole runs: the links accepted over successive pages
of one Gumtree run carry pairwise distinct ids, none of them already in
the startup set. -/
theorem gumtreeScheduleRun_spec (pages : List (List String)) :
    ∀ known : List String,
    ((gumtreeScheduleRun known pages).map job_id_from_url).Nodup ∧
    ∀ u ∈ gumtreeScheduleRun known pages, job_id_from_url u ∉ known := by
  induction pages with
  | nil =>
    intro known
    simp [gumtreeScheduleRun]
  | cons p ps ih =>
    intro known
    obtain ⟨h1, h2, h3⟩ := gumtreeFilterNew_spec p known
    obtain ⟨ih1, ih2⟩ := ih (gumtreeFilterNew known p).2
    simp only [gumtreeScheduleRun]
    constructor
    · rw [List.map_append, List.nodup_append]
      refine ⟨h1, ih1, ?_⟩
      intro x hx hx2
      obtain ⟨u', hu', he⟩ := List.mem_map.1 hx2
      exact ih2 u' hu' ((h3 _).2 (Or.inr (by rw [he]; exact hx)))
    · intro u hu
      rcases List.mem_append.1 hu with hl | hr
      · exact h2 u hl
      · exact fun hk => ih2 u hr ((h3 _).2 (Or.inl hk))

/-- Invariant of the OLX candidate loop, on candidate lists whose title
reads all succeed: accepted candidates carry pairwise distinct dedup
keys, none already known, and the updated set is the old set plus the
accepted keys. -/
theorem olxFilterNew_spec (cands : List OlxCand)
    (hall : ∀ c ∈ cands, ∃ t, c.titleRead = some (some t)) :
    ∀ known : List String,
    (((olxFilterNew known cands).1.filterMap olxKeyOf).Nodup ∧
      ∀ k ∈ (olxFilterNew known cands).1.filterMap olxKeyOf, k ∉ known) ∧
    (∀ k, k ∈ (olxFilterNew known cands).2 ↔
      k ∈ known ∨ k ∈ (olxFilterNew known cands).1.filterMap olxKeyOf) := by
  induction cands with
  | nil =>
    intro known
    simp [olxFilterNew]
  | cons c rest ih =>
    intro known
    obtain ⟨t, ht⟩ := hall c (List.mem_cons_self c rest)
    have hrest : ∀ x ∈ rest, ∃ u, x.titleRead = some (some u) :=
      fun x hx => hall x (List.mem_cons_of_mem c hx)
    have hkey : olxKeyOf c = some (pyStripLower t) := by
      simp [olxKeyOf, ht]
    by_cases h : pyStripLower t ∈ known
    · simpa [olxFilterNew, ht, h] using ih hrest known
    · obtain ⟨⟨h1, h2⟩, h3⟩ := ih hrest (pyStripLower t :: known)
      simp only [olxFilterNew, ht, h, if_false]
      refine ⟨⟨?_, ?_⟩, ?_⟩
      · rw [List.filterMap_cons, hkey, List.nodup_cons]
        refine ⟨?_, h1⟩
        intro hmem
        exact (h2 _ hmem) (List.mem_cons_self _ _)
      · intro k hk
        rw [List.filterMap_cons, hkey] at hk
        rcases List.mem_cons.1 hk with rfl | hk'
        · exact h
        · exact fun hx => (h2 k hk') (List.mem_cons_of_mem _ hx)
      · intro k
        rw [h3 k, List.filterMap_cons, hkey]
        simp only [List.mem_cons]
        tauto

/-- Invariant across whole OLX runs, under the same proviso. -/
theorem olxScheduleRun_spec (pages : List (List OlxCand))
    (hall : ∀ p ∈ pages, ∀ c ∈ p, ∃ t, c.titleRead = some (some t)) :
    ∀ known : List String,
    ((olxScheduleRun known pages).filterMap olxKeyOf).Nodup ∧
    ∀ k ∈ (olxScheduleRun known pages).filterMap olxKeyOf, k ∉ known := by
  induction pages with
  | nil =>
    intro known
    simp [olxScheduleRun]
  | cons p ps ih =>
    intro known
    have hp : ∀ c ∈ p, ∃ t, c.titleRead = some (some t) :=
      hall p (List.mem_cons_self p ps)
    have hps : ∀ q ∈ ps, ∀ c ∈ q, ∃ t, c.titleRead = some (some t) :=
      fun q hq => hall q (List.mem_cons_of_mem p hq)
    obtain ⟨⟨h1, h2⟩, h3⟩ := olxFilterNew_spec p hp known
    obtain ⟨ih1, ih2⟩ := ih hps (olxFilterNew known p).2
    simp only [olxScheduleRun]
    constructor
    · rw [List.filterMap_append, List.nodup_append]
      refine ⟨h1, ih1, ?_⟩
      intro x hx hx2
      exact ih2 x hx2 ((h3 _).2 (Or.inr hx))
    · intro k hk
      rw [List.filterMap_append] at hk
      rcases List.mem_append.1 hk with hl | hr
      · exact h2 k hl
      · exact fun hx => ih2 k hr ((h3 _).2 (Or.inl hx))

/-- C2 counterexample: in the OLX engine, a candidate whose listing-title
read raises is scheduled with no dedup check and no marking; two
occurrences of the same link are therefore both scheduled — the same
identity is fetched twice — and the dedup set is left untouched. -/
theorem olx_exception_double_schedule_counterexample :
    ((olxFilterNew [] [⟨"u", none⟩, ⟨"u", none⟩]).1.map (fun c => c.url)) =
      ["u", "u"] ∧
    ¬ ((olxFilterNew [] [⟨"u", none⟩, ⟨"u", none⟩]).1.map (fun c => c.url)).Nodup ∧
    (olxFilterNew [] [⟨"u", none⟩, ⟨"u", none⟩]).2 = [] := by
  decide

/-- C2 (amended): the Gumtree engine marks each accepted id at the moment
of acceptance, so across all pages of a run no id is scheduled twice and
none that was already known is scheduled at all; the OLX engine gives the
same guarantee only for candidates whose listing-title read succeeds
(candidates whose title read raises are scheduled unmarked). -/
theorem dedup_marked_at_scheduling
    (known : List String) (pages : List (List String))
    (oknown : List String) (opages : List (List OlxCand))
    (hall : ∀ p ∈ opages, ∀ c ∈ p, ∃ t, c.titleRead = some (some t)) :
    (((gumtreeScheduleRun known pages).map job_id_from_url).Nodup ∧
      ∀ u ∈ gumtreeScheduleRun known pages, job_id_from_url u ∉ known) ∧
    (((olxScheduleRun oknown opages).filterMap olxKeyOf).Nodup ∧
      ∀ k ∈ (olxScheduleRun oknown opages).filterMap olxKeyOf, k ∉ oknown) :=
  ⟨gumtreeScheduleRun_spec pages known, olxScheduleRun_spec opages hall oknown⟩

/-- C2 witness: the amended theorem at one concrete two-page run. -/
theorem dedup_marked_at_scheduling_witness :
    ((gumtreeScheduleRun []
      [["https://a/1", "https://a/2"], ["https://a/1"]]).map job_id_from_url).Nodup :=
  (dedup_marked_at_scheduling []
    [["https://a/1", "https://a/2"], ["https://a/1"]]
    [] [[⟨"u", some (some "T")⟩]]
    (by
      intro p hp c hc
      simp only [List.mem_singleton] at hp
      subst hp
      simp only [List.mem_singleton] at hc
      subst hc
      exact ⟨"T", rfl⟩)).1.1

/- ### C3: batch sizing against the remaining need -/

/-- The chunking of `scrape_jobs_in_batches` fetches each given link
exactly once (fuel dominating the list length). -/
theorem olxBatchesAux_sum (bs : Nat) : ∀ (fuel : Nat) (links : List String),
    links.length ≤ fuel →
    ((olxBatchesAux bs fuel links).map List.length).sum = links.length := by
  intro fuel
  induction fuel with
  | zero =>
    intro links h
    have hnil : links = [] := List.length_eq_zero.1 (Nat.le_zero.1 h)
    subst hnil
    rfl
  | succ n ih =>
    intro links h
    cases links with
    | nil => rfl
    | cons x xs =>
      have hxs : xs.length ≤ n := by
        simp only [List.length_cons] at h
        omega
      have hdrop : (xs.drop (bs - 1)).length ≤ n := by
        simp only [List.length_drop]
        omega
      simp only [olxBatchesAux, List.map_cons, List.sum_cons]
      rw [ih (xs.drop (bs - 1)) hdrop]
      simp only [List.length_cons, List.length_take, List.length_drop]
      omega

/-- Total fetches issued by `scrape_jobs_in_batches`: one per link. -/
theorem olxFetchCount_eq_length (bs : Nat) (links : List String) :
    olxFetchCount bs links = links.length :=
  olxBatchesAux_sum bs links.length links (le_refl _)

/-- C3 counterexample: an OLX run with target 1, no pre-existing records
and nothing accepted yet (remaining need 1) meets a listing page with two
new candidates; the driver passes both to the batch scraper untruncated,
so 2 fetches are issued where the claim allows at most 1. -/
theorem olx_overfetch_counterexample :
    olxPageFetches 5 [] [⟨"a", some (some "t1")⟩, ⟨"b", some (some "t2")⟩] = 2 ∧
    1 - (0 + 0) <
      olxPageFetches 5 [] [⟨"a", some (some "t1")⟩, ⟨"b", some (some "t2")⟩] := by
  decide

/-- C3 (amended): the Gumtree engine truncates each batch to the
remaining need computed immediately before the batch, so it never issues
more fetches than that need; the OLX engine performs no such truncation —
its batch scraper issues one fetch per accepted candidate of the page,
whatever the remaining need is. -/
theorem batch_bounded_by_remaining :
    (∀ (target existing scraped : Nat) (newLinks : List String),
      (gumtreeJobsToScrape target existing scraped newLinks).length ≤
        target - (existing + scraped)) ∧
    (∀ (bs : Nat) (links : List String), olxFetchCount bs links = links.length) := by
  constructor
  · intro t e s l
    simp only [gumtreeJobsToScrape, List.length_take]
    exact Nat.min_le_left _ _
  · exact olxFetchCount_eq_length

/- ### C5: termination on a stuck paginator -/

/-- Core invariant: starting anywhere at or before page `N + 1`, with the
stored fingerprint equal to page `N`'s whenever we are about to process
page `N + 1`, a walk over a source whose pages `N` and `N + 1` share
their fingerprint never requests page `N + 2`. -/
theorem gumtreeWalk_stuck_aux (src : Nat → List String)
    (fetch : String → Option Job) (target existing N : Nat) (hN : 1 ≤ N)
    (hfp : gumtreeFingerprint (src N) = gumtreeFingerprint (src (N + 1))) :
    ∀ (fuel pageNum scraped : Nat) (known : List String)
      (lastFp : Option (List String)),
      pageNum ≤ N + 1 →
      (pageNum = N + 1 → lastFp = some (gumtreeFingerprint (src N))) →
      N + 2 ∉ gumtreeWalk src fetch target existing fuel pageNum scraped known lastFp := by
  intro fuel
  induction fuel with
  | zero =>
    intro pageNum scraped known lastFp _ _
    simp [gumtreeWalk]
  | succ n ih =>
    intro pageNum scraped known lastFp hle hprev
    simp only [gumtreeWalk]
    by_cases htop : target ≠ 0 ∧ target ≤ existing + scraped
    · simp [htop]
    · rw [if_neg htop]
      simp only [List.mem_cons, not_or]
      refine ⟨by omega, ?_⟩
      by_cases h1 : src pageNum = []
      · simp [h1]
      · rw [if_neg h1]
        by_cases h2 : lastFp = some (gumtreeFingerprint (src pageNum)) ∧ 1 < pageNum
        · simp [h2]
        · rw [if_neg h2]
          have hpage : pageNum ≠ N + 1 := by
            intro hpn
            apply h2
            subst hpn
            exact ⟨by rw [hprev rfl, hfp], by omega⟩
          by_cases h3 : (gumtreeFilterNew known (src pageNum)).1 ≠ [] ∧
              target ≤ existing + scraped
          · simp [h3]
          · rw [if_neg h3]
            by_cases h4 : target ≤ existing +
                gumtreeScraped target existing scraped known (src pageNum) fetch
            · simp [h4]
            · rw [if_neg h4]
              refine ih (pageNum + 1) _ _ _ (by omega) ?_
              intro hp
              have hpn : pageNum = N := by omega
              rw [hpn]

/-- C5: whenever pages `N` and `N + 1` of the listing source yield the
same first-10 identity fingerprint (`N ≥ 1`), a Gumtree walk started at
page 1 with no stored fingerprint never requests page `N + 2` — it
terminates no later than during page `N + 1`; the comparison is void on
page 1 (no stored fingerprint exists there) and the stored fingerprint
always holds exactly the previous page's value. -/
theorem pagination_stuck_terminates (src : Nat → List String)
    (fetch : String → Option Job) (target existing fuel : Nat)
    (known : List String) (N : Nat) (hN : 1 ≤ N)
    (hfp : gumtreeFingerprint (src N) = gumtreeFingerprint (src (N + 1))) :
    N + 2 ∉ gumtreeWalk src fetch target existing fuel 1 0 known none :=
  gumtreeWalk_stuck_aux src fetch target existing N hN hfp fuel 1 0 known none
    (by omega) (fun h => absurd h (by omega))

/-- C5 witness: a constant listing source repeats its fingerprint on
pages 1 and 2, so page 3 is never requested. -/
theorem pagination_stuck_terminates_witness :
    (3 : Nat) ∉ gumtreeWalk (fun _ => ["https://a/1"]) (fun _ => none)
      0 0 3 1 0 [] none :=
  pagination_stuck_terminates (fun _ => ["https://a/1"]) (fun _ => none)
    0 0 3 [] 1 (by decide) rfl

end JobAds
